import Mathlib

/-!
Verification of the `stream_contract` token-streaming contract
(`src/contracts/stream_contract/src/lib.rs`).

The contract state lives in the host's key-value storage: one `Stream`
record per numeric id (persistent storage) and a singleton `StreamCounter`
(instance storage, absent read as 0).  We embed that state as a function
from ids to optional records plus a counter, and each contract entry point
as a pure function from state to state, additionally returning the token
transfers requested from the token client and the events published.
Addresses are opaque principals, modelled as naturals; `i128` amounts are
modelled as `Int` and `u64` timestamps and ids as `Nat`.
-/

namespace FlowFi

/-- Opaque principal / contract identifier (Soroban `Address`). -/
abbrev Address := Nat

/-- The `Stream` record stored by the contract (lib.rs lines 7-19). -/
structure Stream where
  sender : Address
  recipient : Address
  token_address : Address
  rate_per_second : Int
  deposited_amount : Int
  withdrawn_amount : Int
  start_time : Nat
  last_update_time : Nat
  is_active : Bool
deriving Repr, DecidableEq

/-- The `StreamError` enum (lib.rs lines 28-35).  The source defines exactly
these four variants, with the discriminants recorded by `StreamError.code`. -/
inductive StreamError where
  | invalidAmount
  | streamNotFound
  | unauthorized
  | streamInactive
deriving Repr, DecidableEq

/-- The numeric discriminant each error variant carries in the source
(`InvalidAmount = 1`, `StreamNotFound = 2`, `Unauthorized = 3`,
`StreamInactive = 4`). -/
def StreamError.code : StreamError → Nat
  | .invalidAmount => 1
  | .streamNotFound => 2
  | .unauthorized => 3
  | .streamInactive => 4

/-- A call `token_client.transfer(&src, &dst, &amount)` issued to the token
collaborator. -/
structure Transfer where
  src : Address
  dst : Address
  amount : Int
deriving Repr, DecidableEq

/-- The events published by the contract (lib.rs lines 37-73). -/
inductive Event where
  | streamCreated (stream_id : Nat) (sender recipient : Address) (rate : Int)
      (token_address : Address) (start_time : Nat)
  | streamCancelled (stream_id : Nat) (sender recipient : Address)
      (amount_withdrawn : Int)
  | tokensWithdrawn (stream_id : Nat) (recipient : Address) (amount : Int)
      (timestamp : Nat)
  | streamToppedUp (stream_id : Nat) (sender : Address) (amount : Int)
      (new_deposited_amount : Int)
deriving Repr, DecidableEq

/-- The durable storage of the contract: persistent entries
`DataKey::Stream(id)` and the instance entry `DataKey::StreamCounter`.
An absent counter reads as `0` (`unwrap_or(0)`), so we store it as a plain
`Nat` initialised to `0`. -/
structure ContractState where
  streams : Nat → Option Stream
  counter : Nat

/-- The address returned by `env.current_contract_address()`; opaque, any
fixed principal works for the model. -/
def contractAddress : Address := 0

/-- Outcome of one entry-point invocation: the storage afterwards, the token
transfers issued, and the events published, in order. -/
structure OpResult where
  state : ContractState
  transfers : List Transfer
  events : List Event

/-- The storage write `storage.set(&DataKey::Stream(id), &stream)`. -/
def setStream (s : ContractState) (id : Nat) (st : Stream) : ContractState :=
  { s with streams := fun k => if k = id then some st else s.streams k }

/-- `get_next_stream_id` (lib.rs lines 134-145): read the counter (absent =
0), add one, persist, return the new value. -/
def get_next_stream_id (s : ContractState) : Nat × ContractState :=
  let counter := s.counter
  let next_id := counter + 1
  (next_id, { s with counter := next_id })

/-- `create_stream` (lib.rs lines 80-132).  After `sender.require_auth()`
(host-enforced, modelled by the caller being `sender`) it draws a fresh id,
reads the ledger timestamp (`now`), transfers `amount` from the sender to
the contract, derives `rate_per_second` (`amount` when `duration == 0`,
else the truncating division `amount / duration`), stores the new record
and publishes `StreamCreatedEvent`; it returns the new id. -/
def create_stream (s : ContractState) (sender recipient token_address : Address)
    (amount : Int) (duration : Nat) (now : Nat) : Nat × OpResult :=
  let p := get_next_stream_id s
  let stream_id := p.1
  let s1 := p.2
  let start_time := now
  let t : Transfer := { src := sender, dst := contractAddress, amount := amount }
  let rate_per_second : Int :=
    if duration = 0 then amount else Int.tdiv amount (Int.ofNat duration)
  let stream : Stream :=
    { sender := sender, recipient := recipient, token_address := token_address
      rate_per_second := rate_per_second
      deposited_amount := amount, withdrawn_amount := 0
      start_time := start_time, last_update_time := start_time
      is_active := true }
  let s2 := setStream s1 stream_id stream
  (stream_id,
    { state := s2, transfers := [t]
      events := [.streamCreated stream_id sender recipient rate_per_second
        token_address start_time] })

/-- `withdraw` (lib.rs lines 147-162), exactly as written in the source:
after `recipient.require_auth()` it binds `amount = 0_i128`, reads the
timestamp, and publishes a `TokensWithdrawnEvent` carrying that zero
amount.  It never reads or writes any stored stream and issues no token
transfer. -/
def withdraw (s : ContractState) (recipient : Address) (stream_id : Nat)
    (now : Nat) : OpResult :=
  let amount : Int := 0
  let timestamp := now
  { state := s, transfers := []
    events := [.tokensWithdrawn stream_id recipient amount timestamp] }

/-- `cancel_stream` (lib.rs lines 164-190): silently return when the record
is absent or the stored sender differs from the caller; otherwise set
`is_active = false`, persist, and publish `StreamCancelledEvent`. -/
def cancel_stream (s : ContractState) (sender : Address) (stream_id : Nat) :
    OpResult :=
  match s.streams stream_id with
  | none => { state := s, transfers := [], events := [] }
  | some stream =>
    if stream.sender ≠ sender then
      { state := s, transfers := [], events := [] }
    else
      let stream' := { stream with is_active := false }
      { state := setStream s stream_id stream'
        transfers := []
        events := [.streamCancelled stream_id sender stream.recipient
          stream.withdrawn_amount] }

/-- `top_up_stream` (lib.rs lines 192-240): reject `amount <= 0`
(`InvalidAmount`), a missing record (`StreamNotFound`), a caller other than
the stored sender (`Unauthorized`), and an inactive stream
(`StreamInactive`), in that order, each early return leaving storage
untouched with no transfer; otherwise transfer `amount` to the contract,
add it to `deposited_amount`, set `last_update_time` to the ledger
timestamp, persist, and publish `StreamToppedUpEvent`. -/
def top_up_stream (s : ContractState) (sender : Address) (stream_id : Nat)
    (amount : Int) (now : Nat) : Except StreamError Unit × OpResult :=
  if amount ≤ 0 then
    (.error .invalidAmount, { state := s, transfers := [], events := [] })
  else
    match s.streams stream_id with
    | none =>
      (.error .streamNotFound, { state := s, transfers := [], events := [] })
    | some stream =>
      if stream.sender ≠ sender then
        (.error .unauthorized, { state := s, transfers := [], events := [] })
      else if stream.is_active = false then
        (.error .streamInactive, { state := s, transfers := [], events := [] })
      else
        let t : Transfer := { src := sender, dst := contractAddress, amount := amount }
        let stream' := { stream with
          deposited_amount := stream.deposited_amount + amount
          last_update_time := now }
        (.ok (),
          { state := setStream s stream_id stream'
            transfers := [t]
            events := [.streamToppedUp stream_id sender amount
              stream'.deposited_amount] })

/-- `get_stream` (lib.rs lines 242-244): pure read of persistent storage. -/
def get_stream (s : ContractState) (stream_id : Nat) : Option Stream :=
  s.streams stream_id

/-- Modelled from the spec: `AccrualEngine.claimable(stream, now)` — the
accrual computation the spec assigns to `withdraw` but which is absent from
the source (`withdraw` is a placeholder).  Zero when `now <=
last_update_time`; otherwise the unbounded accrual `rate_per_second * (now
- last_update_time)` capped at the remaining escrow `deposited_amount -
withdrawn_amount`. -/
def claimable (st : Stream) (now : Nat) : Int :=
  if now ≤ st.last_update_time then 0
  else
    min (st.rate_per_second * Int.ofNat (now - st.last_update_time))
      (st.deposited_amount - st.withdrawn_amount)

/-- One invocation of a mutating entry point, with the arguments the caller
supplies and the ledger timestamp the host reports. -/
inductive Op where
  | create (sender recipient token_address : Address) (amount : Int)
      (duration : Nat) (now : Nat)
  | topUp (sender : Address) (stream_id : Nat) (amount : Int) (now : Nat)
  | withdrawCall (recipient : Address) (stream_id : Nat) (now : Nat)
  | cancel (sender : Address) (stream_id : Nat)
deriving Repr, DecidableEq

/-- Storage after executing one invocation. -/
def exec (s : ContractState) : Op → ContractState
  | .create sender recipient tok amount duration now =>
    (create_stream s sender recipient tok amount duration now).2.state
  | .topUp sender stream_id amount now =>
    (top_up_stream s sender stream_id amount now).2.state
  | .withdrawCall recipient stream_id now =>
    (withdraw s recipient stream_id now).state
  | .cancel sender stream_id =>
    (cancel_stream s sender stream_id).state

/-- Storage after a sequence of invocations. -/
def execList (s : ContractState) (ops : List Op) : ContractState :=
  ops.foldl exec s

/-- The contract's storage before any call: no stream records, counter
absent (read as 0). -/
def initialState : ContractState :=
  { streams := fun _ => none, counter := 0 }

/-- The escrow-accounting invariant of one record:
`0 <= withdrawn_amount <= deposited_amount`. -/
def Stream.amountInv (st : Stream) : Prop :=
  0 ≤ st.withdrawn_amount ∧ st.withdrawn_amount ≤ st.deposited_amount

/-- Every stored record satisfies the escrow-accounting invariant. -/
def invAll (s : ContractState) : Prop :=
  ∀ id st, s.streams id = some st → st.amountInv

/-- Every stored id has been issued by the counter. -/
def idsBounded (s : ContractState) : Prop :=
  ∀ id st, s.streams id = some st → id ≤ s.counter

/-- An invocation is a `create_stream` only with a positive deposit. -/
def Op.createPositive : Op → Prop
  | .create _ _ _ amount _ _ => 0 < amount
  | _ => True

instance : DecidablePred Op.createPositive := fun op =>
  match op with
  | .create _ _ _ amount _ _ => inferInstanceAs (Decidable (0 < amount))
  | .topUp _ _ _ _ => .isTrue trivial
  | .withdrawCall _ _ _ => .isTrue trivial
  | .cancel _ _ => .isTrue trivial

/-- Number of `create_stream` invocations in a sequence. -/
def createCount : List Op → Nat
  | [] => 0
  | .create _ _ _ _ _ _ :: rest => createCount rest + 1
  | _ :: rest => createCount rest

/-- The ids returned by the `create_stream` invocations of a sequence, in
call order. -/
def execTrace (s : ContractState) : List Op → List Nat
  | [] => []
  | .create sender recipient tok amount duration now :: rest =>
    (create_stream s sender recipient tok amount duration now).1 ::
      execTrace (exec s (.create sender recipient tok amount duration now)) rest
  | op :: rest => execTrace (exec s op) rest

/-! ### Concrete fixtures

A small stored state used to evaluate the theorems on concrete inputs: one
stream at id 1 from sender 1 to recipient 2 over token 3, rate 10, deposit
1000, nothing withdrawn, created at time 0. -/

/-- A concrete active stream record. -/
def wStream : Stream :=
  { sender := 1, recipient := 2, token_address := 3, rate_per_second := 10
    deposited_amount := 1000, withdrawn_amount := 0, start_time := 0
    last_update_time := 0, is_active := true }

/-- A storage holding `wStream` at id 1, counter already at 1. -/
def wState : ContractState :=
  { streams := fun k => if k = 1 then some wStream else none, counter := 1 }

/-- The same record after cancellation. -/
def wStreamOff : Stream := { wStream with is_active := false }

/-- A storage holding the cancelled record at id 1. -/
def wStateOff : ContractState :=
  { streams := fun k => if k = 1 then some wStreamOff else none, counter := 1 }

/-! ### Helper lemmas -/

lemma setStream_streams (s : ContractState) (id : Nat) (st : Stream) (k : Nat) :
    (setStream s id st).streams k = if k = id then some st else s.streams k := rfl

lemma setStream_counter (s : ContractState) (id : Nat) (st : Stream) :
    (setStream s id st).counter = s.counter := rfl

lemma top_up_state_cases (s : ContractState) (sndr : Address) (id : Nat)
    (amt : Int) (now : Nat) :
    (top_up_stream s sndr id amt now).2.state = s ∨
    ∃ st, s.streams id = some st ∧ 0 < amt ∧ st.sender = sndr ∧
      st.is_active = true ∧
      (top_up_stream s sndr id amt now).2.state =
        setStream s id { st with
          deposited_amount := st.deposited_amount + amt
          last_update_time := now } := by
  by_cases hamt : amt ≤ 0
  · left; simp [top_up_stream, hamt]
  · cases hs : s.streams id with
    | none => left; simp [top_up_stream, hamt, hs]
    | some st =>
      by_cases hsend : st.sender = sndr
      · by_cases hact : st.is_active = false
        · left; simp [top_up_stream, hamt, hs, hsend, hact]
        · right
          refine ⟨st, rfl, by omega, hsend, by simpa using hact, ?_⟩
          simp [top_up_stream, hamt, hs, hsend, hact]
      · left; simp [top_up_stream, hamt, hs, hsend]

lemma cancel_state_cases (s : ContractState) (sndr : Address) (id : Nat) :
    (cancel_stream s sndr id).state = s ∨
    ∃ st, s.streams id = some st ∧ st.sender = sndr ∧
      (cancel_stream s sndr id).state =
        setStream s id { st with is_active := false } := by
  cases hs : s.streams id with
  | none => left; simp [cancel_stream, hs]
  | some st =>
    by_cases hsend : st.sender = sndr
    · right; exact ⟨st, rfl, hsend, by simp [cancel_stream, hs, hsend]⟩
    · left; simp [cancel_stream, hs, hsend]

lemma cancel_success (s : ContractState) (sndr : Address) (id : Nat)
    (st : Stream) (hget : s.streams id = some st) (hsend : st.sender = sndr) :
    cancel_stream s sndr id =
      { state := setStream s id { st with is_active := false }
        transfers := []
        events := [.streamCancelled id sndr st.recipient st.withdrawn_amount] } := by
  simp [cancel_stream, hget, hsend]

lemma invAll_exec (s : ContractState) (op : Op) (h : invAll s)
    (hc : op.createPositive) : invAll (exec s op) := by
  cases op with
  | create sender recipient tok amount duration now =>
    have hamt : (0 : Int) < amount := hc
    intro id st hst
    simp only [exec, create_stream, get_next_stream_id, setStream] at hst
    by_cases hid : id = s.counter + 1
    · rw [if_pos hid] at hst
      injection hst with hst
      subst hst
      exact ⟨le_refl 0, le_of_lt hamt⟩
    · rw [if_neg hid] at hst
      exact h id st hst
  | topUp sndr sid amt now =>
    rcases top_up_state_cases s sndr sid amt now with heq | ⟨st0, hs0, hpos, _, _, heq⟩
    · intro id st hst
      rw [show exec s (.topUp sndr sid amt now) =
            (top_up_stream s sndr sid amt now).2.state from rfl, heq] at hst
      exact h id st hst
    · intro id st hst
      rw [show exec s (.topUp sndr sid amt now) =
            (top_up_stream s sndr sid amt now).2.state from rfl, heq] at hst
      rw [setStream_streams] at hst
      by_cases hid : id = sid
      · rw [if_pos hid] at hst
        injection hst with hst
        subst hst
        have := h sid st0 hs0
        simp only [Stream.amountInv] at this ⊢
        omega
      · rw [if_neg hid] at hst
        exact h id st hst
  | withdrawCall recipient sid now =>
    intro id st hst
    exact h id st hst
  | cancel sndr sid =>
    rcases cancel_state_cases s sndr sid with heq | ⟨st0, hs0, _, heq⟩
    · intro id st hst
      rw [show exec s (.cancel sndr sid) = (cancel_stream s sndr sid).state from rfl,
        heq] at hst
      exact h id st hst
    · intro id st hst
      rw [show exec s (.cancel sndr sid) = (cancel_stream s sndr sid).state from rfl,
        heq, setStream_streams] at hst
      by_cases hid : id = sid
      · rw [if_pos hid] at hst
        injection hst with hst
        subst hst
        have := h sid st0 hs0
        simp only [Stream.amountInv] at this ⊢
        omega
      · rw [if_neg hid] at hst
        exact h id st hst

lemma invAll_execList (s : ContractState) (ops : List Op) (h : invAll s)
    (hc : ∀ op ∈ ops, op.createPositive) : invAll (execList s ops) := by
  induction ops generalizing s with
  | nil => exact h
  | cons op rest ih =>
    rw [execList, List.foldl_cons]
    exact ih (exec s op) (invAll_exec s op h (hc op (List.mem_cons_self op rest)))
      (fun o ho => hc o (List.mem_cons_of_mem _ ho))

lemma idsBounded_exec (s : ContractState) (op : Op) (hb : idsBounded s) :
    idsBounded (exec s op) := by
  cases op with
  | create sender recipient tok amount duration now =>
    intro id st hst
    simp only [exec, create_stream, get_next_stream_id, setStream] at hst ⊢
    by_cases hid : id = s.counter + 1
    · omega
    · rw [if_neg hid] at hst
      have := hb id st hst
      omega
  | topUp sndr sid amt now =>
    rcases top_up_state_cases s sndr sid amt now with heq | ⟨st0, hs0, _, _, _, heq⟩ <;>
      intro id st hst <;>
      rw [show exec s (.topUp sndr sid amt now) =
            (top_up_stream s sndr sid amt now).2.state from rfl, heq] at hst ⊢
    · exact hb id st hst
    · rw [setStream_streams] at hst
      rw [show (setStream s sid { st0 with
            deposited_amount := st0.deposited_amount + amt
            last_update_time := now }).counter = s.counter from rfl]
      by_cases hid : id = sid
      · subst hid; exact hb id st0 hs0
      · rw [if_neg hid] at hst
        exact hb id st hst
  | withdrawCall recipient sid now =>
    intro id st hst
    exact hb id st hst
  | cancel sndr sid =>
    rcases cancel_state_cases s sndr sid with heq | ⟨st0, hs0, _, heq⟩ <;>
      intro id st hst <;>
      rw [show exec s (.cancel sndr sid) = (cancel_stream s sndr sid).state from rfl,
        heq] at hst ⊢
    · exact hb id st hst
    · rw [setStream_streams] at hst
      rw [show (setStream s sid { st0 with is_active := false }).counter =
            s.counter from rfl]
      by_cases hid : id = sid
      · subst hid; exact hb id st0 hs0
      · rw [if_neg hid] at hst
        exact hb id st hst

lemma inactive_exec (s : ContractState) (op : Op) (id : Nat) (st : Stream)
    (hb : idsBounded s) (hget : s.streams id = some st)
    (hin : st.is_active = false) :
    ∃ st', (exec s op).streams id = some st' ∧ st'.is_active = false := by
  cases op with
  | create sender recipient tok amount duration now =>
    have hid : id ≠ s.counter + 1 := by
      have := hb id st hget
      omega
    refine ⟨st, ?_, hin⟩
    simp only [exec, create_stream, get_next_stream_id, setStream]
    rw [if_neg hid]
    exact hget
  | topUp sndr sid amt now =>
    rcases top_up_state_cases s sndr sid amt now with heq | ⟨st0, hs0, _, _, hact, heq⟩
    · exact ⟨st, by
        rw [show exec s (.topUp sndr sid amt now) =
              (top_up_stream s sndr sid amt now).2.state from rfl, heq]
        exact hget, hin⟩
    · by_cases hid : id = sid
      · exfalso
        subst hid
        rw [hget] at hs0
        injection hs0 with hs0
        rw [← hs0] at hact
        rw [hin] at hact
        exact Bool.false_ne_true hact
      · refine ⟨st, ?_, hin⟩
        rw [show exec s (.topUp sndr sid amt now) =
              (top_up_stream s sndr sid amt now).2.state from rfl, heq,
          setStream_streams, if_neg hid]
        exact hget
  | withdrawCall recipient sid now =>
    exact ⟨st, hget, hin⟩
  | cancel sndr sid =>
    rcases cancel_state_cases s sndr sid with heq | ⟨st0, hs0, _, heq⟩
    · exact ⟨st, by
        rw [show exec s (.cancel sndr sid) = (cancel_stream s sndr sid).state from rfl,
          heq]
        exact hget, hin⟩
    · by_cases hid : id = sid
      · refine ⟨{ st0 with is_active := false }, ?_, rfl⟩
        subst hid
        rw [show exec s (.cancel sndr id) = (cancel_stream s sndr id).state from rfl,
          heq, setStream_streams, if_pos rfl]
      · refine ⟨st, ?_, hin⟩
        rw [show exec s (.cancel sndr sid) = (cancel_stream s sndr sid).state from rfl,
          heq, setStream_streams, if_neg hid]
        exact hget

lemma inactive_execList (s : ContractState) (ops : List Op) (id : Nat) (st : Stream)
    (hb : idsBounded s) (hget : s.streams id = some st)
    (hin : st.is_active = false) :
    ∃ st', (execList s ops).streams id = some st' ∧ st'.is_active = false := by
  induction ops generalizing s st with
  | nil => exact ⟨st, hget, hin⟩
  | cons op rest ih =>
    obtain ⟨st', hget', hin'⟩ := inactive_exec s op id st hb hget hin
    rw [execList, List.foldl_cons]
    exact ih (exec s op) st' (idsBounded_exec s op hb) hget' hin'

lemma idsBounded_execList (s : ContractState) (ops : List Op)
    (hb : idsBounded s) : idsBounded (execList s ops) := by
  induction ops generalizing s with
  | nil => exact hb
  | cons op rest ih =>
    rw [execList, List.foldl_cons]
    exact ih (exec s op) (idsBounded_exec s op hb)

lemma top_up_inactive_error (s : ContractState) (sndr : Address) (id : Nat)
    (amt : Int) (now : Nat) (st : Stream) (hget : s.streams id = some st)
    (hin : st.is_active = false) :
    ∃ e, (top_up_stream s sndr id amt now).1 = .error e := by
  by_cases hamt : amt ≤ 0
  · exact ⟨.invalidAmount, by simp [top_up_stream, hamt]⟩
  · by_cases hsend : st.sender = sndr
    · exact ⟨.streamInactive, by simp [top_up_stream, hamt, hget, hsend, hin]⟩
    · exact ⟨.unauthorized, by simp [top_up_stream, hamt, hget, hsend]⟩

lemma state_eq_of (a b : ContractState) (h1 : ∀ k, a.streams k = b.streams k)
    (h2 : a.counter = b.counter) : a = b := by
  cases a with
  | mk sa ca =>
    cases b with
    | mk sb cb =>
      simp only at h1 h2
      rw [show sa = sb from funext h1, h2]

lemma create_counter (s : ContractState) (sender recipient tok : Address)
    (amount : Int) (duration now : Nat) :
    (create_stream s sender recipient tok amount duration now).2.state.counter =
      s.counter + 1 := rfl

lemma create_fst (s : ContractState) (sender recipient tok : Address)
    (amount : Int) (duration now : Nat) :
    (create_stream s sender recipient tok amount duration now).1 =
      s.counter + 1 := rfl

lemma exec_counter_topUp (s : ContractState) (sndr : Address) (sid : Nat)
    (amt : Int) (now : Nat) :
    (exec s (.topUp sndr sid amt now)).counter = s.counter := by
  rcases top_up_state_cases s sndr sid amt now with heq | ⟨st0, _, _, _, _, heq⟩ <;>
    (rw [show exec s (.topUp sndr sid amt now) =
          (top_up_stream s sndr sid amt now).2.state from rfl, heq]; try rfl)

lemma exec_counter_cancel (s : ContractState) (sndr : Address) (sid : Nat) :
    (exec s (.cancel sndr sid)).counter = s.counter := by
  rcases cancel_state_cases s sndr sid with heq | ⟨st0, _, _, heq⟩ <;>
    (rw [show exec s (.cancel sndr sid) = (cancel_stream s sndr sid).state from rfl,
      heq]; try rfl)

lemma execTrace_range (ops : List Op) : ∀ s : ContractState,
    execTrace s ops = List.range' (s.counter + 1) (createCount ops) := by
  induction ops with
  | nil => intro s; rfl
  | cons op rest ih =>
    intro s
    cases op with
    | create sender recipient tok amount duration now =>
      rw [execTrace, createCount, List.range'_succ, create_fst]
      have hc : (exec s (.create sender recipient tok amount duration now)).counter =
          s.counter + 1 := rfl
      rw [ih, hc]
    | topUp sndr sid amt now =>
      rw [show execTrace s (.topUp sndr sid amt now :: rest) =
            execTrace (exec s (.topUp sndr sid amt now)) rest from rfl,
        show createCount (.topUp sndr sid amt now :: rest) = createCount rest from rfl,
        ih, exec_counter_topUp]
    | withdrawCall recipient sid now =>
      rw [show execTrace s (.withdrawCall recipient sid now :: rest) =
            execTrace (exec s (.withdrawCall recipient sid now)) rest from rfl,
        show createCount (.withdrawCall recipient sid now :: rest) =
          createCount rest from rfl,
        ih,
        show (exec s (.withdrawCall recipient sid now)).counter = s.counter from rfl]
    | cancel sndr sid =>
      rw [show execTrace s (.cancel sndr sid :: rest) =
            execTrace (exec s (.cancel sndr sid)) rest from rfl,
        show createCount (.cancel sndr sid :: rest) = createCount rest from rfl,
        ih, exec_counter_cancel]

/-! ### Claims -/

/-- Claim C2: after any sequence of contract invocations from the initial
state in which every `create_stream` deposits a positive amount, every
stored stream record satisfies `0 ≤ withdrawn_amount ≤ deposited_amount`;
in particular no sequence of `withdraw` calls ever makes `withdrawn_amount`
exceed `deposited_amount`. -/
theorem spec_c2_amount_invariant (ops : List Op)
    (hc : ∀ op ∈ ops, op.createPositive) :
    invAll (execList initialState ops) := by
  refine invAll_execList initialState ops ?_ hc
  intro id st hst
  simp [initialState] at hst

/-- Witness for C2 at a concrete call sequence: create, top-up, withdraw,
cancel. -/
theorem spec_c2_amount_invariant_witness :
    (∀ op ∈ ([.create 1 2 3 1000 100 0, .topUp 1 1 500 50,
        .withdrawCall 2 1 60, .cancel 1 1] : List Op), op.createPositive) ∧
    invAll (execList initialState
      [.create 1 2 3 1000 100 0, .topUp 1 1 500 50,
        .withdrawCall 2 1 60, .cancel 1 1]) := by
  have hc : ∀ op ∈ ([.create 1 2 3 1000 100 0, .topUp 1 1 500 50,
      .withdrawCall 2 1 60, .cancel 1 1] : List Op), op.createPositive := by
    decide
  exact ⟨hc, spec_c2_amount_invariant _ hc⟩

/-- Claim C3: `top_up_stream` returns `InvalidAmount` on `amount ≤ 0`,
`StreamNotFound` on a missing record, `Unauthorized` when the stored sender
differs from the caller, and `StreamInactive` on an inactive stream; in
each error case the storage is unchanged, no transfer is issued and no
event is published. -/
theorem spec_c3_top_up_errors (s : ContractState) (sndr : Address) (id : Nat)
    (amt : Int) (now : Nat) :
    (amt ≤ 0 → top_up_stream s sndr id amt now =
      (.error .invalidAmount, { state := s, transfers := [], events := [] })) ∧
    (0 < amt → s.streams id = none → top_up_stream s sndr id amt now =
      (.error .streamNotFound, { state := s, transfers := [], events := [] })) ∧
    (∀ st, 0 < amt → s.streams id = some st → st.sender ≠ sndr →
      top_up_stream s sndr id amt now =
        (.error .unauthorized, { state := s, transfers := [], events := [] })) ∧
    (∀ st, 0 < amt → s.streams id = some st → st.sender = sndr →
      st.is_active = false → top_up_stream s sndr id amt now =
        (.error .streamInactive, { state := s, transfers := [], events := [] })) := by
  refine ⟨fun h => by simp [top_up_stream, h], fun h hn => ?_,
    fun st h hs hsend => ?_, fun st h hs hsend hact => ?_⟩
  · have h' : ¬ amt ≤ 0 := by omega
    simp [top_up_stream, h', hn]
  · have h' : ¬ amt ≤ 0 := by omega
    simp [top_up_stream, h', hs, hsend]
  · have h' : ¬ amt ≤ 0 := by omega
    simp [top_up_stream, h', hs, hsend, hact]

/-- Witness for C3: all four error cases on concrete states. -/
theorem spec_c3_top_up_errors_witness :
    top_up_stream wState 1 1 (-5) 0 =
      (.error .invalidAmount, { state := wState, transfers := [], events := [] }) ∧
    top_up_stream wState 1 2 7 0 =
      (.error .streamNotFound, { state := wState, transfers := [], events := [] }) ∧
    top_up_stream wState 4 1 7 0 =
      (.error .unauthorized, { state := wState, transfers := [], events := [] }) ∧
    top_up_stream wStateOff 1 1 7 0 =
      (.error .streamInactive, { state := wStateOff, transfers := [], events := [] }) := by
  refine ⟨(spec_c3_top_up_errors wState 1 1 (-5) 0).1 (by decide),
    (spec_c3_top_up_errors wState 1 2 7 0).2.1 (by decide) rfl,
    (spec_c3_top_up_errors wState 4 1 7 0).2.2.1 wStream (by decide) rfl (by decide),
    (spec_c3_top_up_errors wStateOff 1 1 7 0).2.2.2 wStreamOff (by decide) rfl rfl rfl⟩

/-- Claim C5: for `amount > 0` and any `duration`, `create_stream` stores at
the returned id a new record with `rate_per_second = amount` when
`duration = 0` and otherwise `rate_per_second = amount.tdiv duration`
(Rust's `/` on `i128`, truncation toward zero), `deposited_amount =
amount`, `withdrawn_amount = 0`, `is_active = true`, and `start_time =
last_update_time =` the ledger timestamp `now`. -/
theorem spec_c5_create_fields (s : ContractState) (sender recipient tok : Address)
    (amount : Int) (duration now : Nat) (_hamt : 0 < amount) :
    (create_stream s sender recipient tok amount duration now).2.state.streams
        (create_stream s sender recipient tok amount duration now).1 =
      some { sender := sender, recipient := recipient, token_address := tok,
             rate_per_second := (if duration = 0 then amount
               else Int.tdiv amount (Int.ofNat duration)),
             deposited_amount := amount, withdrawn_amount := 0,
             start_time := now, last_update_time := now, is_active := true } := by
  simp [create_stream, get_next_stream_id, setStream]

/-- Witness for C5: the spec's own scenario, amount 1000 over duration 100
gives rate 10 (and a zero-duration creation gives rate = amount). -/
theorem spec_c5_create_fields_witness :
    ((0 : Int) < 1000 ∧
      (create_stream initialState 1 2 3 1000 100 7).2.state.streams
          (create_stream initialState 1 2 3 1000 100 7).1 =
        some { sender := 1, recipient := 2, token_address := 3,
               rate_per_second := 10, deposited_amount := 1000,
               withdrawn_amount := 0, start_time := 7, last_update_time := 7,
               is_active := true }) ∧
    (create_stream initialState 1 2 3 250 0 7).2.state.streams
        (create_stream initialState 1 2 3 250 0 7).1 =
      some { sender := 1, recipient := 2, token_address := 3,
             rate_per_second := 250, deposited_amount := 250,
             withdrawn_amount := 0, start_time := 7, last_update_time := 7,
             is_active := true } := by
  refine ⟨⟨by decide, ?_⟩, ?_⟩
  · have h := spec_c5_create_fields initialState 1 2 3 1000 100 7 (by decide)
    have ht : Int.tdiv 1000 (Int.ofNat 100) = 10 := by decide
    simpa [ht] using h
  · have h := spec_c5_create_fields initialState 1 2 3 250 0 7 (by decide)
    simpa using h

/-- Claim C7: in any storage whose stream ids were issued by the counter, a
stream whose `is_active` is `false` stays `false` under every further
sequence of invocations — no operation ever sets it back to `true` — and
every subsequent `top_up_stream` on that id returns an error. -/
theorem spec_c7_inactive_terminal (s : ContractState) (hb : idsBounded s)
    (id : Nat) (st : Stream) (hget : s.streams id = some st)
    (hin : st.is_active = false) (ops : List Op) :
    (∃ st', (execList s ops).streams id = some st' ∧ st'.is_active = false) ∧
    (∀ (sndr : Address) (amt : Int) (now : Nat),
      ∃ e, (top_up_stream (execList s ops) sndr id amt now).1 = .error e) := by
  obtain ⟨st', hget', hin'⟩ := inactive_execList s ops id st hb hget hin
  exact ⟨⟨st', hget', hin'⟩,
    fun sndr amt now => top_up_inactive_error _ sndr id amt now st' hget' hin'⟩

/-- Witness for C7: the cancelled stream at id 1 stays inactive across a
top-up attempt and a repeated cancel, and topping it up afterwards fails. -/
theorem spec_c7_inactive_terminal_witness :
    (idsBounded wStateOff ∧ wStateOff.streams 1 = some wStreamOff ∧
      wStreamOff.is_active = false) ∧
    ((∃ st', (execList wStateOff [.topUp 1 1 5 9, .cancel 1 1]).streams 1 =
        some st' ∧ st'.is_active = false) ∧
     (∀ (sndr : Address) (amt : Int) (now : Nat),
       ∃ e, (top_up_stream (execList wStateOff [.topUp 1 1 5 9, .cancel 1 1])
         sndr 1 amt now).1 = .error e)) := by
  have hb : idsBounded wStateOff := by
    intro id st hst
    by_cases hid : id = 1
    · simp [wStateOff, hid]
    · simp [wStateOff, hid] at hst
  exact ⟨⟨hb, rfl, rfl⟩,
    spec_c7_inactive_terminal wStateOff hb 1 wStreamOff rfl rfl
      [.topUp 1 1 5 9, .cancel 1 1]⟩

/-- Claim C8: `get_next_stream_id` reads the counter (absent read as 0),
increments it, persists the new value and returns it; hence over any call
sequence from the initial state the `create_stream` invocations return the
consecutive ids `1, 2, 3, ...` — the n-th create returns n — and no id is
ever returned twice. -/
theorem spec_c8_id_allocation (ops : List Op) :
    (∀ s : ContractState, get_next_stream_id s =
      (s.counter + 1, { s with counter := s.counter + 1 })) ∧
    execTrace initialState ops = List.range' 1 (createCount ops) ∧
    (execTrace initialState ops).Nodup := by
  refine ⟨fun s => rfl, ?_, ?_⟩
  · simpa [initialState] using execTrace_range ops initialState
  · rw [execTrace_range ops initialState]
    exact List.nodup_range' _ _

/-- Claim C9: the validations of `top_up_stream` run in a fixed order:
`amount ≤ 0` reports `InvalidAmount` regardless of the stream's existence,
owner or activity; a missing record reports `StreamNotFound` before any
sender comparison; and a sender mismatch reports `Unauthorized` even when
the stream is also inactive. -/
theorem spec_c9_top_up_check_order (s : ContractState) (sndr : Address)
    (id : Nat) (amt : Int) (now : Nat) :
    (amt ≤ 0 → (top_up_stream s sndr id amt now).1 = .error .invalidAmount) ∧
    (0 < amt → s.streams id = none →
      (top_up_stream s sndr id amt now).1 = .error .streamNotFound) ∧
    (∀ st, 0 < amt → s.streams id = some st → st.sender ≠ sndr →
      (top_up_stream s sndr id amt now).1 = .error .unauthorized) := by
  refine ⟨fun h => by simp [top_up_stream, h], fun h hn => ?_,
    fun st h hs hsend => ?_⟩
  · have h' : ¬ amt ≤ 0 := by omega
    simp [top_up_stream, h', hn]
  · have h' : ¬ amt ≤ 0 := by omega
    simp [top_up_stream, h', hs, hsend]

/-- Witness for C9 at inputs where several error conditions hold at once: a
non-positive amount from the wrong sender on an inactive stream still
reports `InvalidAmount`, a missing id from the wrong sender reports
`StreamNotFound`, and a wrong sender on an inactive stream reports
`Unauthorized`, not `StreamInactive`. -/
theorem spec_c9_top_up_check_order_witness :
    (top_up_stream wStateOff 4 1 (-3) 0).1 = .error .invalidAmount ∧
    (top_up_stream wState 4 2 7 0).1 = .error .streamNotFound ∧
    (top_up_stream wStateOff 4 1 7 0).1 = .error .unauthorized := by
  exact ⟨(spec_c9_top_up_check_order wStateOff 4 1 (-3) 0).1 (by decide),
    (spec_c9_top_up_check_order wState 4 2 7 0).2.1 (by decide) rfl,
    (spec_c9_top_up_check_order wStateOff 4 1 7 0).2.2 wStreamOff (by decide)
      rfl (by decide)⟩

/-- Claim C10: `cancel_stream` is idempotent on stored state: when the
stored sender matches the caller, a second cancel also takes the success
path (there is no activity check — it publishes the cancellation event
again) and the storage after the second call equals the storage after the
first. -/
theorem spec_c10_cancel_idempotent (s : ContractState) (sndr : Address)
    (id : Nat) (st : Stream) (hget : s.streams id = some st)
    (hsend : st.sender = sndr) :
    (cancel_stream (cancel_stream s sndr id).state sndr id).state =
      (cancel_stream s sndr id).state ∧
    (cancel_stream (cancel_stream s sndr id).state sndr id).events =
      [.streamCancelled id sndr st.recipient st.withdrawn_amount] := by
  have hA := cancel_success s sndr id st hget hsend
  have hget1 : (setStream s id { st with is_active := false }).streams id =
      some { st with is_active := false } := by
    rw [setStream_streams, if_pos rfl]
  have hsend' : ({ st with is_active := false } : Stream).sender = sndr := hsend
  have hB := cancel_success (setStream s id { st with is_active := false })
    sndr id { st with is_active := false } hget1 hsend'
  constructor
  · rw [hA]
    show (cancel_stream (setStream s id { st with is_active := false }) sndr
      id).state = setStream s id { st with is_active := false }
    rw [hB]
    refine state_eq_of _ _ (fun k => ?_) rfl
    simp only [setStream_streams]
    by_cases hk : k = id
    · simp [hk]
    · simp [hk]
  · rw [hA]
    show (cancel_stream (setStream s id { st with is_active := false }) sndr
        id).events =
      [.streamCancelled id sndr st.recipient st.withdrawn_amount]
    rw [hB]

/-- Witness for C10: cancelling the concrete stream at id 1 twice leaves
the same storage as cancelling it once, and the second call still emits the
cancellation event. -/
theorem spec_c10_cancel_idempotent_witness :
    (cancel_stream (cancel_stream wState 1 1).state 1 1).state =
      (cancel_stream wState 1 1).state ∧
    (cancel_stream (cancel_stream wState 1 1).state 1 1).events =
      [.streamCancelled 1 1 wStream.recipient wStream.withdrawn_amount] :=
  spec_c10_cancel_idempotent wState 1 1 wStream rfl rfl

/-- Claim C1 (evaluating the source at the claim's input): the stored
active stream `wStream` with rate 10, deposit 1000, nothing withdrawn and
`last_update_time = 0` has a spec-modelled claimable amount of
`min(10 * 50, 1000 - 0) = 500` at `now = 50`, yet the source's `withdraw`
— a placeholder that hard-codes `amount = 0_i128` — issues no token
transfer, leaves the storage untouched, and only publishes a zero-amount
`TokensWithdrawnEvent`. -/
theorem spec_c1_withdraw_placeholder :
    claimable wStream 50 = 500 ∧
    withdraw wState 2 1 50 =
      { state := wState, transfers := []
        events := [.tokensWithdrawn 1 2 0 50] } := by
  exact ⟨by decide, rfl⟩

/-- Claim C4 (evaluating the source at the claim's inputs): `withdraw` has
no failure path at all — called on the absent id 999 it completes normally
and publishes an event, and called by principal 9, who is not the stored
recipient 2 of stream 1, it also completes normally. -/
theorem spec_c4_withdraw_no_error_paths :
    (get_stream initialState 999 = none ∧
      withdraw initialState 7 999 3 =
        { state := initialState, transfers := []
          events := [.tokensWithdrawn 999 7 0 3] }) ∧
    (wStream.recipient ≠ 9 ∧
      withdraw wState 9 1 5 =
        { state := wState, transfers := []
          events := [.tokensWithdrawn 1 9 0 5] }) :=
  ⟨⟨rfl, rfl⟩, ⟨by decide, rfl⟩⟩

/-- Claim C6 (evaluating the source's error enum): `StreamError` consists
of exactly `InvalidAmount = 1`, `StreamNotFound = 2`, `Unauthorized = 3`
and `StreamInactive = 4`; no `ArithmeticOverflow` variant exists, and the
source performs no checked accrual arithmetic at all (`withdraw` is a
placeholder that computes nothing). -/
theorem spec_c6_no_overflow_variant :
    ∀ e : StreamError,
      (e = .invalidAmount ∨ e = .streamNotFound ∨ e = .unauthorized ∨
        e = .streamInactive) ∧
      e.code ∈ ([1, 2, 3, 4] : List Nat) := by
  intro e
  cases e <;> simp [StreamError.code]

end FlowFi
